import Mathlib

/-!
Verification of the matrix coverage aggregation of `blueprints/matrix.py`
(endpoint `get_ultimate_matrix`, v14.0).

The endpoint runs two SQL aggregation queries (one per tactic, one per
technique with a cross join of "own" rules and "sub-technique" rules) and
then post-processes the rows in Python (coverage levels, filters, the
technique dictionary, global statistics).  This file embeds both layers:

* SQL `LIKE` is embedded as `sqlLike` over character lists.
* Each technique's grouped row set is embedded as the cross product of the
  left-joined "own" rule rows and "sub" rule rows (`joinPairs`); the
  `COUNT(DISTINCT ...)` aggregates are `countDistinct` over that row set.
  The `technique_tactics` and `comments` join factors of the source query
  only multiply rows and never feed a counted expression of the rule
  aggregates, so they are omitted from the per-technique row set: every
  aggregate modelled here is `COUNT(DISTINCT ...)`, which is invariant
  under row multiplication.
* The Python post-processing (coverage levels, the coverage filter, the
  `all_techniques_dict`, the statistics block) is embedded directly.
-/

/-- A row of the `correlation_rules` table, restricted to the columns the
matrix endpoint reads.  `id` is the primary key. -/
structure Rule where
  id : Nat
  technique_id : String
  active : Bool
  status : String
  severity : Option String
deriving Repr, DecidableEq

/-- A row of the `techniques` table joined with its tactic links,
restricted to the columns the matrix endpoint reads.  `id` is the primary
key, `attack_id` the MITRE id (e.g. "T1078" / "T1078.001");
`tacticShortnames` holds the `x_mitre_shortname` of each linked tactic
(the `technique_tactics` inner join). -/
structure Technique where
  id : Nat
  attack_id : String
  deprecated : Bool
  revoked : Bool
  platforms : List String
  tacticShortnames : List String
deriving Repr, DecidableEq

/-- All suffixes of a character list, longest first. -/
def suffixes : List Char → List (List Char)
  | [] => [[]]
  | c :: s => (c :: s) :: suffixes s

/-- SQL `LIKE` matching over characters: `%` matches any (possibly
empty) sequence, `_` matches any single character, all other characters
match literally. -/
def sqlLike : List Char → List Char → Bool
  | [], s => s.isEmpty
  | p :: ps, s =>
    if p = '%' then (suffixes s).any (fun t => sqlLike ps t)
    else
      match s with
      | [] => false
      | c :: s => (p = '_' || p = c) && sqlLike ps s

/-- A pattern fragment without `LIKE` wildcards. -/
def noWild (q : List Char) : Bool := q.all (fun c => !(c = '%') && !(c = '_'))

theorem nil_mem_suffixes (s : List Char) : [] ∈ suffixes s := by
  induction s with
  | nil => simp [suffixes]
  | cons c s ih =>
    simp only [suffixes, List.mem_cons]
    exact Or.inr ih

theorem sqlLike_percent_nil (s : List Char) : sqlLike ['%'] s = true := by
  simp [sqlLike]
  exact nil_mem_suffixes s

/-- A wildcard-free pattern followed by `%` matches exactly the strings
having that pattern as a prefix: `LIKE 'q%'` is prefix matching. -/
theorem sqlLike_append_percent (q : List Char) (s : List Char)
    (h : noWild q = true) : sqlLike (q ++ ['%']) s = q.isPrefixOf s := by
  induction q generalizing s with
  | nil => simp [List.isPrefixOf, sqlLike_percent_nil]
  | cons p q ih =>
    have hp : ¬(p = '%') ∧ ¬(p = '_') := by
      have := h
      simp [noWild] at this
      exact ⟨this.1.1, this.1.2⟩
    have hq : noWild q = true := by
      simp [noWild] at h ⊢
      exact h.2
    cases s with
    | nil =>
      simp [sqlLike, List.isPrefixOf, hp.1]
    | cons c s =>
      by_cases hpc : p = c
      · subst hpc
        simp [sqlLike, List.isPrefixOf, hp.1, hp.2, ih s hq]
      · simp [sqlLike, List.isPrefixOf, hp.1, hp.2, ih s hq, hpc]

theorem any_dot_percent_suffixes (s : List Char) :
    ((suffixes s).any (fun t => sqlLike ['.', '%'] t)) = s.contains '.' := by
  induction s with
  | nil => simp [suffixes, sqlLike]
  | cons c s ih =>
    simp only [suffixes, List.any_cons, ih]
    by_cases hc : c = '.'
    · subst hc
      simp [sqlLike, sqlLike_percent_nil]
      exact Or.inl (nil_mem_suffixes s)
    · have h2 : ¬('.' = c) := fun h => hc h.symm
      simp [sqlLike, h2, hc, List.contains_cons]

/-- `LIKE '%.%'` tests whether the string contains a dot. -/
theorem sqlLike_contains_dot (s : List Char) :
    sqlLike ['%', '.', '%'] s = s.contains '.' := by
  rw [show sqlLike ['%', '.', '%'] s
      = (suffixes s).any (fun t => sqlLike ['.', '%'] t) from rfl]
  exact any_dot_percent_suffixes s

/-- Cross product of two row lists (an unconditioned SQL join). -/
def cross (l₁ : List α) (l₂ : List β) : List (α × β) :=
  l₁.flatMap (fun a => l₂.map (fun b => (a, b)))

/-- The row list a SQL `LEFT JOIN` contributes for one group: the matched
rows, or a single `none` row when nothing matches. -/
def optRows (l : List Rule) : List (Option Rule) :=
  if l.isEmpty then [none] else l.map some

/-- `COUNT(DISTINCT e)` over a column of nullable values. -/
def countDistinct (l : List (Option Nat)) : Nat :=
  (l.filterMap id).dedup.length

/-- SQL `COALESCE` of two nullable values. -/
def coalesce (a b : Option α) : Option α :=
  match a with
  | some x => some x
  | none => b

/-- The `cr_own` join of the techniques query:
`LEFT JOIN correlation_rules cr_own ON t.attack_id = cr_own.technique_id`. -/
def ownJoin (aid : String) (rules : List Rule) : List Rule :=
  rules.filter (fun r => r.technique_id == aid)

/-- The `cr_sub` join of the techniques query:
`LEFT JOIN correlation_rules cr_sub ON cr_sub.technique_id LIKE
CONCAT(t.attack_id, '.%') AND t.attack_id NOT LIKE '%.%'`. -/
def subJoin (aid : String) (rules : List Rule) : List Rule :=
  rules.filter (fun r =>
    sqlLike (aid.toList ++ ['.', '%']) r.technique_id.toList
      && !sqlLike ['%', '.', '%'] aid.toList)

/-- The grouped row set of one technique in the techniques query: the
cross product of the left-joined own-rule rows and sub-rule rows. -/
def joinPairs (aid : String) (rules : List Rule) :
    List (Option Rule × Option Rule) :=
  cross (optRows (ownJoin aid rules)) (optRows (subJoin aid rules))

/-- The counted expression of the plain rule-id aggregates: the nullable
`cr.id` column. -/
def totalIdCase (o : Option Rule) : Option Nat :=
  o.map Rule.id

/-- The counted expression of the active-rule aggregates:
`CASE WHEN cr.active = 1 AND cr.status != 'deleted' THEN cr.id END`. -/
def activeIdCase (o : Option Rule) : Option Nat :=
  match o with
  | some r => if r.active && !(r.status == "deleted") then some r.id else none
  | none => none

/-- `COUNT(DISTINCT cr_own.id)` (`own_total_rules`). -/
def own_total_rules (aid : String) (rules : List Rule) : Nat :=
  countDistinct ((joinPairs aid rules).map (fun p => totalIdCase p.1))

/-- `COUNT(DISTINCT CASE WHEN cr_own.active = 1 AND cr_own.status !=
'deleted' THEN cr_own.id END)` (`own_active_rules`). -/
def own_active_rules (aid : String) (rules : List Rule) : Nat :=
  countDistinct ((joinPairs aid rules).map (fun p => activeIdCase p.1))

/-- `COUNT(DISTINCT cr_sub.id)` (`sub_total_rules`). -/
def sub_total_rules (aid : String) (rules : List Rule) : Nat :=
  countDistinct ((joinPairs aid rules).map (fun p => totalIdCase p.2))

/-- `COUNT(DISTINCT CASE WHEN cr_sub.active = 1 AND cr_sub.status !=
'deleted' THEN cr_sub.id END)` (`sub_active_rules`). -/
def sub_active_rules (aid : String) (rules : List Rule) : Nat :=
  countDistinct ((joinPairs aid rules).map (fun p => activeIdCase p.2))

/-- The nullable `active` test of a joined rule row (SQL three-valued
logic: a NULL row never satisfies `cr.active = 1`). -/
def rowActive (o : Option Rule) : Bool :=
  match o with
  | some r => r.active
  | none => false

/-- The nullable `status != 'deleted'` test of a joined rule row. -/
def rowNotDeleted (o : Option Rule) : Bool :=
  match o with
  | some r => !(r.status == "deleted")
  | none => false

/-- The `CASE WHEN (cr_own.active = 1 OR cr_sub.active = 1) AND
(cr_own.status != 'deleted' OR cr_sub.status != 'deleted') AND
(COALESCE(cr_own.severity, cr_sub.severity) = sev) THEN
COALESCE(cr_own.id, cr_sub.id) END` expression of the severity buckets. -/
def sevCase (sev : String) (p : Option Rule × Option Rule) : Option Nat :=
  if (rowActive p.1 || rowActive p.2)
      && (rowNotDeleted p.1 || rowNotDeleted p.2)
      && (coalesce (p.1.bind Rule.severity) (p.2.bind Rule.severity)
            == some sev) then
    coalesce (p.1.map Rule.id) (p.2.map Rule.id)
  else none

/-- `COUNT(DISTINCT CASE ... END)` for one severity bucket
(`critical_rules_count`, `high_rules_count`, ...). -/
def severity_rules_count (sev : String) (aid : String)
    (rules : List Rule) : Nat :=
  countDistinct ((joinPairs aid rules).map (sevCase sev))

/-- The severity breakdown of a technique's coverage
(`rules_by_severity`). -/
structure SeverityCounts where
  critical : Nat
  high : Nat
  medium : Nat
  low : Nat
deriving Repr, DecidableEq

/-- The `coverage` object built per technique row. -/
structure Coverage where
  total_rules : Nat
  active_rules : Nat
  own_rules : Nat
  sub_rules : Nat
  rules_by_severity : SeverityCounts
  has_coverage : Bool
  coverage_level : String
deriving Repr, DecidableEq

/-- The coverage-level classification of the Python post-processing:
`excellent` for >= 5 active rules, `good` for >= 3, `basic` for >= 1,
`none` otherwise. -/
def coverageLevelOf (active_rules : Nat) : String :=
  if active_rules ≥ 5 then "excellent"
  else if active_rules ≥ 3 then "good"
  else if active_rules ≥ 1 then "basic"
  else "none"

/-- The full `coverage` object of one technique: SQL aggregates plus the
Python post-processing (`total_rules = own_total + sub_total`,
`active_rules = own_active + sub_active`, level, severity buckets). -/
def techniqueCoverage (aid : String) (rules : List Rule) : Coverage :=
  let ownT := own_total_rules aid rules
  let ownA := own_active_rules aid rules
  let subT := sub_total_rules aid rules
  let subA := sub_active_rules aid rules
  { total_rules := ownT + subT
    active_rules := ownA + subA
    own_rules := ownT
    sub_rules := subT
    rules_by_severity :=
      { critical := severity_rules_count "critical" aid rules
        high := severity_rules_count "high" aid rules
        medium := severity_rules_count "medium" aid rules
        low := severity_rules_count "low" aid rules }
    has_coverage := decide (0 < ownA + subA)
    coverage_level := coverageLevelOf (ownA + subA) }

/-- A rule that is counted as active: `active = 1 AND status != 'deleted'`. -/
def isActiveRule (r : Rule) : Bool :=
  r.active && !(r.status == "deleted")

theorem mem_cross {l₁ : List α} {l₂ : List β} {p : α × β} :
    p ∈ cross l₁ l₂ ↔ p.1 ∈ l₁ ∧ p.2 ∈ l₂ := by
  cases p with
  | mk a b =>
    constructor
    · intro h
      simp only [cross, List.mem_flatMap, List.mem_map] at h
      obtain ⟨x, hx, y, hy, hxy⟩ := h
      cases hxy
      exact ⟨hx, hy⟩
    · rintro ⟨ha, hb⟩
      simp only [cross, List.mem_flatMap, List.mem_map]
      exact ⟨a, ha, b, hb, rfl⟩

theorem mem_optRows {l : List Rule} {o : Option Rule} :
    o ∈ optRows l ↔ (l = [] ∧ o = none) ∨ ∃ r ∈ l, o = some r := by
  by_cases h : l = []
  · subst h
    simp [optRows]
  · simp [optRows, List.isEmpty_iff, h]
    constructor
    · rintro ⟨r, hr, hro⟩
      exact ⟨r, hr, hro.symm⟩
    · rintro ⟨r, hr, hro⟩
      exact ⟨r, hr, hro.symm⟩

theorem optRows_ne_nil (l : List Rule) : optRows l ≠ [] := by
  by_cases h : l = []
  · subst h
    simp [optRows]
  · simp [optRows, List.isEmpty_iff, h]

theorem countDistinct_eq_card (l : List (Option Nat)) :
    countDistinct l = (l.filterMap id).toFinset.card := by
  simp [countDistinct, List.card_toFinset]

/-- Counting a distinct expression of the left join factor over the cross
product ignores the right factor: the row multiplication cancels under
`COUNT(DISTINCT ...)`. -/
theorem countDistinct_cross_fst (own sub : List Rule)
    (g : Option Rule → Option Nat) (hg : g none = none) :
    countDistinct ((cross (optRows own) (optRows sub)).map (fun p => g p.1))
      = countDistinct (own.map (fun r => g (some r))) := by
  rw [countDistinct_eq_card, countDistinct_eq_card]
  congr 1
  ext n
  simp only [List.mem_toFinset, List.mem_filterMap, List.mem_map, id_eq]
  constructor
  · rintro ⟨m, ⟨p, hp, hgp⟩, rfl⟩
    rcases mem_cross.mp hp with ⟨h1, _⟩
    rcases mem_optRows.mp h1 with ⟨_, hno⟩ | ⟨r, hr, hro⟩
    · rw [hno, hg] at hgp
      exact absurd hgp (by simp)
    · exact ⟨some n, ⟨r, hr, by rw [← hro]; exact hgp⟩, rfl⟩
  · rintro ⟨m, ⟨r, hr, hgr⟩, rfl⟩
    have hsub := optRows_ne_nil sub
    obtain ⟨o2, ho2⟩ := List.exists_mem_of_ne_nil _ hsub
    refine ⟨some n, ⟨(some r, o2), mem_cross.mpr ⟨?_, ho2⟩, hgr⟩, rfl⟩
    exact mem_optRows.mpr (Or.inr ⟨r, hr, rfl⟩)

/-- Mirror image of `countDistinct_cross_fst` for the right join factor. -/
theorem countDistinct_cross_snd (own sub : List Rule)
    (g : Option Rule → Option Nat) (hg : g none = none) :
    countDistinct ((cross (optRows own) (optRows sub)).map (fun p => g p.2))
      = countDistinct (sub.map (fun r => g (some r))) := by
  rw [countDistinct_eq_card, countDistinct_eq_card]
  congr 1
  ext n
  simp only [List.mem_toFinset, List.mem_filterMap, List.mem_map, id_eq]
  constructor
  · rintro ⟨m, ⟨p, hp, hgp⟩, rfl⟩
    rcases mem_cross.mp hp with ⟨_, h2⟩
    rcases mem_optRows.mp h2 with ⟨_, hno⟩ | ⟨r, hr, hro⟩
    · rw [hno, hg] at hgp
      exact absurd hgp (by simp)
    · exact ⟨some n, ⟨r, hr, by rw [← hro]; exact hgp⟩, rfl⟩
  · rintro ⟨m, ⟨r, hr, hgr⟩, rfl⟩
    have hown := optRows_ne_nil own
    obtain ⟨o1, ho1⟩ := List.exists_mem_of_ne_nil _ hown
    refine ⟨some n, ⟨(o1, some r), mem_cross.mpr ⟨ho1, ?_⟩, hgr⟩, rfl⟩
    exact mem_optRows.mpr (Or.inr ⟨r, hr, rfl⟩)

theorem filterMap_map_some (l : List Rule) :
    (l.map (fun r => some r.id)).filterMap id = l.map Rule.id := by
  induction l with
  | nil => rfl
  | cons r l ih => simp [List.filterMap_cons, ih]

theorem filterMap_map_if (l : List Rule) (c : Rule → Bool) :
    (l.map (fun r => if c r then some r.id else none)).filterMap id
      = (l.filter c).map Rule.id := by
  induction l with
  | nil => rfl
  | cons r l ih =>
    by_cases h : c r <;>
      simp [List.filterMap_cons, List.filter_cons, h, ih]

theorem nodup_filter_map_id (rules : List Rule) (c : Rule → Bool)
    (h : (rules.map Rule.id).Nodup) :
    ((rules.filter c).map Rule.id).Nodup :=
  List.Nodup.sublist (List.Sublist.map Rule.id (List.filter_sublist rules)) h

theorem own_total_rules_eq (aid : String) (rules : List Rule)
    (h : (rules.map Rule.id).Nodup) :
    own_total_rules aid rules = (ownJoin aid rules).length := by
  unfold own_total_rules joinPairs
  rw [countDistinct_cross_fst (ownJoin aid rules) (subJoin aid rules)
    totalIdCase rfl]
  unfold countDistinct
  rw [show ((ownJoin aid rules).map fun r => totalIdCase (some r))
      = ((ownJoin aid rules).map fun r => some r.id) from rfl]
  rw [filterMap_map_some]
  have hnd : ((ownJoin aid rules).map Rule.id).Nodup := by
    unfold ownJoin
    exact nodup_filter_map_id rules _ h
  rw [List.dedup_eq_self.mpr hnd, List.length_map]

theorem own_active_rules_eq (aid : String) (rules : List Rule)
    (h : (rules.map Rule.id).Nodup) :
    own_active_rules aid rules
      = ((ownJoin aid rules).filter isActiveRule).length := by
  unfold own_active_rules joinPairs
  rw [countDistinct_cross_fst (ownJoin aid rules) (subJoin aid rules)
    activeIdCase rfl]
  unfold countDistinct
  rw [show ((ownJoin aid rules).map fun r => activeIdCase (some r))
      = ((ownJoin aid rules).map fun r => if isActiveRule r then some r.id else none) from rfl]
  rw [filterMap_map_if]
  have hnd : (((ownJoin aid rules).filter isActiveRule).map Rule.id).Nodup := by
    apply List.Nodup.sublist _ h
    apply List.Sublist.map
    exact (List.filter_sublist _).trans (by unfold ownJoin; exact List.filter_sublist _)
  rw [List.dedup_eq_self.mpr hnd, List.length_map]

theorem sub_total_rules_eq (aid : String) (rules : List Rule)
    (h : (rules.map Rule.id).Nodup) :
    sub_total_rules aid rules = (subJoin aid rules).length := by
  unfold sub_total_rules joinPairs
  rw [countDistinct_cross_snd (ownJoin aid rules) (subJoin aid rules)
    totalIdCase rfl]
  unfold countDistinct
  rw [show ((subJoin aid rules).map fun r => totalIdCase (some r))
      = ((subJoin aid rules).map fun r => some r.id) from rfl]
  rw [filterMap_map_some]
  have hnd : ((subJoin aid rules).map Rule.id).Nodup := by
    unfold subJoin
    exact nodup_filter_map_id rules _ h
  rw [List.dedup_eq_self.mpr hnd, List.length_map]

theorem sub_active_rules_eq (aid : String) (rules : List Rule)
    (h : (rules.map Rule.id).Nodup) :
    sub_active_rules aid rules
      = ((subJoin aid rules).filter isActiveRule).length := by
  unfold sub_active_rules joinPairs
  rw [countDistinct_cross_snd (ownJoin aid rules) (subJoin aid rules)
    activeIdCase rfl]
  unfold countDistinct
  rw [show ((subJoin aid rules).map fun r => activeIdCase (some r))
      = ((subJoin aid rules).map fun r => if isActiveRule r then some r.id else none) from rfl]
  rw [filterMap_map_if]
  have hnd : (((subJoin aid rules).filter isActiveRule).map Rule.id).Nodup := by
    apply List.Nodup.sublist _ h
    apply List.Sublist.map
    exact (List.filter_sublist _).trans (by unfold subJoin; exact List.filter_sublist _)
  rw [List.dedup_eq_self.mpr hnd, List.length_map]

theorem countDistinct_le (l : List α) (f g : α → Option Nat)
    (h : ∀ a n, f a = some n → g a = some n) :
    countDistinct (l.map f) ≤ countDistinct (l.map g) := by
  rw [countDistinct_eq_card, countDistinct_eq_card]
  apply Finset.card_le_card
  intro n hn
  simp only [List.mem_toFinset, List.mem_filterMap, List.mem_map, id_eq] at hn ⊢
  obtain ⟨m, ⟨a, ha, hfa⟩, hmn⟩ := hn
  subst hmn
  exact ⟨some n, ⟨a, ha, h a n hfa⟩, rfl⟩

theorem activeIdCase_some (o : Option Rule) (n : Nat)
    (h : activeIdCase o = some n) : totalIdCase o = some n := by
  cases o with
  | none => simp [activeIdCase] at h
  | some r =>
    simp only [activeIdCase] at h
    by_cases hc : (r.active && !(r.status == "deleted")) = true
    · simp [hc] at h
      simp [totalIdCase, h]
    · simp [hc] at h

theorem cross_singleton_right (l : List α) (b : β) :
    cross l [b] = l.map (fun a => (a, b)) := by
  induction l with
  | nil => rfl
  | cons a l ih => simp [cross] at ih ⊢; exact ih

theorem cross_singleton_left (a : α) (l : List β) :
    cross [a] l = l.map (fun b => (a, b)) := by
  simp [cross]

/-- The single-rule form of one severity bucket's `CASE` expression. -/
def sevSingle (sev : String) (r : Rule) : Option Nat :=
  if isActiveRule r && (r.severity == some sev) then some r.id else none

theorem sevCase_none_right (sev : String) (o : Option Rule) :
    sevCase sev (o, none) = (match o with
      | some r => sevSingle sev r
      | none => none) := by
  cases o with
  | none => simp [sevCase, rowActive, rowNotDeleted, coalesce]
  | some r =>
    simp only [sevCase, sevSingle, rowActive, rowNotDeleted, coalesce,
      isActiveRule, Option.bind, Option.map, Bool.or_false]
    cases hs : r.severity <;> simp [hs, Bool.and_assoc]

theorem sevCase_none_left (sev : String) (o : Option Rule) :
    sevCase sev (none, o) = (match o with
      | some r => sevSingle sev r
      | none => none) := by
  cases o with
  | none => simp [sevCase, rowActive, rowNotDeleted, coalesce]
  | some r =>
    cases hs : r.severity <;>
      simp [sevCase, sevSingle, rowActive, rowNotDeleted, coalesce,
        isActiveRule, hs, Bool.and_assoc]

theorem countDistinct_optRows (own : List Rule) (g : Option Rule → Option Nat)
    (hg : g none = none) :
    countDistinct ((optRows own).map g)
      = countDistinct (own.map (fun r => g (some r))) := by
  by_cases h : own = []
  · subst h
    simp [optRows, countDistinct, hg]
  · rw [show optRows own = own.map some from by
      simp [optRows, List.isEmpty_iff, h]]
    rw [List.map_map]
    rfl

theorem countDistinct_map_sevSingle (l : List Rule) (sev : String)
    (h : (l.map Rule.id).Nodup) :
    countDistinct (l.map (fun r => sevSingle sev r))
      = (l.filter
          (fun r => isActiveRule r && (r.severity == some sev))).length := by
  unfold countDistinct
  rw [show (l.map fun r => sevSingle sev r)
      = (l.map fun r =>
          if isActiveRule r && (r.severity == some sev) then some r.id
          else none) from rfl]
  rw [filterMap_map_if]
  have hnd : ((l.filter
      (fun r => isActiveRule r && (r.severity == some sev))).map Rule.id).Nodup :=
    List.Nodup.sublist (List.Sublist.map Rule.id (List.filter_sublist l)) h
  rw [List.dedup_eq_self.mpr hnd, List.length_map]

/-- With no sub-technique rules joined, a severity bucket counts exactly
the technique's own active rules of that severity. -/
theorem severity_rules_count_of_sub_nil (sev aid : String) (rules : List Rule)
    (h : (rules.map Rule.id).Nodup) (hs : subJoin aid rules = []) :
    severity_rules_count sev aid rules
      = ((ownJoin aid rules).filter
          (fun r => isActiveRule r && (r.severity == some sev))).length := by
  unfold severity_rules_count joinPairs
  rw [hs]
  rw [show optRows [] = [none] from rfl]
  rw [cross_singleton_right, List.map_map]
  have hfun : (sevCase sev ∘ fun a : Option Rule => (a, none))
      = (fun o : Option Rule =>
          match o with
          | some r => sevSingle sev r
          | none => none) := by
    funext o
    simp [Function.comp, sevCase_none_right]
  rw [hfun]
  rw [countDistinct_optRows _ _ rfl]
  rw [show ((ownJoin aid rules).map fun r =>
      (match some r with
        | some r => sevSingle sev r
        | none => none : Option Nat))
      = ((ownJoin aid rules).map fun r => sevSingle sev r) from rfl]
  exact countDistinct_map_sevSingle _ sev
    (List.Nodup.sublist (List.Sublist.map Rule.id (List.filter_sublist rules)) h)

/-- With no own rules joined, a severity bucket counts exactly the
sub-techniques' active rules of that severity. -/
theorem severity_rules_count_of_own_nil (sev aid : String) (rules : List Rule)
    (h : (rules.map Rule.id).Nodup) (ho : ownJoin aid rules = []) :
    severity_rules_count sev aid rules
      = ((subJoin aid rules).filter
          (fun r => isActiveRule r && (r.severity == some sev))).length := by
  unfold severity_rules_count joinPairs
  rw [ho]
  rw [show optRows [] = [none] from rfl]
  rw [cross_singleton_left, List.map_map]
  have hfun : (sevCase sev ∘ fun b : Option Rule => ((none : Option Rule), b))
      = (fun o : Option Rule =>
          match o with
          | some r => sevSingle sev r
          | none => none) := by
    funext o
    simp [Function.comp, sevCase_none_left]
  rw [hfun]
  rw [countDistinct_optRows _ _ rfl]
  rw [show ((subJoin aid rules).map fun r =>
      (match some r with
        | some r => sevSingle sev r
        | none => none : Option Nat))
      = ((subJoin aid rules).map fun r => sevSingle sev r) from rfl]
  exact countDistinct_map_sevSingle _ sev
    (List.Nodup.sublist (List.Sublist.map Rule.id (List.filter_sublist rules)) h)

/-- The query parameters of the endpoint that influence the coverage
computation (`platform`, `coverage`, `tactic`, `include_deprecated`). -/
structure Params where
  platform_filter : Option String
  coverage_filter : String
  tactic_filter : Option String
  include_deprecated : Bool
deriving Repr, DecidableEq

/-- The `WHERE` clause of the techniques query combined with its
`INNER JOIN` on `technique_tactics`/`tactics`: `t.revoked = 0`, optionally
`t.deprecated = 0`, optionally `JSON_CONTAINS(t.platforms, :platform)`,
and at least one tactic link (matching `:tactic_filter` when given). -/
def techWhere (p : Params) (t : Technique) : Bool :=
  !t.revoked
    && (p.include_deprecated || !t.deprecated)
    && (match p.platform_filter with
        | none => true
        | some pf => t.platforms.contains pf)
    && (match p.tactic_filter with
        | none => !t.tacticShortnames.isEmpty
        | some tf => t.tacticShortnames.contains tf)

/-- The Python `coverage` filter: a row is skipped when
`coverage == "covered"` and it has no active rules, or when
`coverage == "uncovered"` and it has active rules. -/
def coverageFilterPass (p : Params) (active_rules : Nat) : Bool :=
  if p.coverage_filter == "covered" && active_rules == 0 then false
  else if p.coverage_filter == "uncovered" && decide (0 < active_rules) then false
  else true

/-- The part of the per-technique response object that the coverage
statistics read. -/
structure TechObj where
  attack_id : String
  deprecated : Bool
  revoked : Bool
  coverage : Coverage
deriving Repr, DecidableEq

/-- The response object of one technique row. -/
def mkTechObj (t : Technique) (rules : List Rule) : TechObj :=
  { attack_id := t.attack_id
    deprecated := t.deprecated
    revoked := t.revoked
    coverage := techniqueCoverage t.attack_id rules }

/-- The processed technique rows of the endpoint, in query order: the SQL
`WHERE`/join filter followed by the Python coverage filter. -/
def matrixTechniqueObjs (p : Params) (techs : List Technique)
    (rules : List Rule) : List TechObj :=
  (techs.filter (techWhere p)).filterMap (fun t =>
    let o := mkTechObj t rules
    if coverageFilterPass p o.coverage.active_rules then some o else none)

/-- One insertion into a Python dict kept as an ordered association list:
replace in place when the key exists, append otherwise. -/
def dictInsert (l : List (String × TechObj)) (k : String) (v : TechObj) :
    List (String × TechObj) :=
  match l with
  | [] => [(k, v)]
  | (k', v') :: rest =>
    if k' == k then (k, v) :: rest else (k', v') :: dictInsert rest k v

/-- The endpoint's `all_techniques_dict`, keyed by `attack_id`. -/
def allTechniquesDict (objs : List TechObj) : List (String × TechObj) :=
  objs.foldl (fun d o => dictInsert d o.attack_id o) []

/-- The `coverage_levels` block of the statistics. -/
structure LevelCounts where
  excellent : Nat
  good : Nat
  basic : Nat
  none_ : Nat
deriving Repr, DecidableEq

/-- `coverage_levels[tech["coverage"]["coverage_level"]] += 1`.  The
increment is keyed by the level string; a string other than the four
known levels would raise a `KeyError` in the source, embedded here as a
no-op (it is unreachable for levels produced by `coverageLevelOf`). -/
def bumpLevel (lc : LevelCounts) (level : String) : LevelCounts :=
  if level == "excellent" then { lc with excellent := lc.excellent + 1 }
  else if level == "good" then { lc with good := lc.good + 1 }
  else if level == "basic" then { lc with basic := lc.basic + 1 }
  else if level == "none" then { lc with none_ := lc.none_ + 1 }
  else lc

/-- Accumulation of `coverage_levels` over the dict values. -/
def coverageLevels (objs : List TechObj) : LevelCounts :=
  objs.foldl (fun lc o => bumpLevel lc o.coverage.coverage_level) ⟨0, 0, 0, 0⟩

/-- Accumulation of the global `rules_by_severity` totals over the dict
values. -/
def globalSeverity (objs : List TechObj) : SeverityCounts :=
  objs.foldl (fun sc o =>
    { critical := sc.critical + o.coverage.rules_by_severity.critical
      high := sc.high + o.coverage.rules_by_severity.high
      medium := sc.medium + o.coverage.rules_by_severity.medium
      low := sc.low + o.coverage.rules_by_severity.low }) ⟨0, 0, 0, 0⟩

/-- Round a rational to the nearest integer, ties to even (the rounding
of Python's `round`). -/
def roundHalfEven (q : ℚ) : ℤ :=
  let f := ⌊q⌋
  let r := q - f
  if r < 1 / 2 then f
  else if 1 / 2 < r then f + 1
  else if f % 2 = 0 then f else f + 1

/-- Python's `round(x, 1)` on exact rational values. -/
def round1 (q : ℚ) : ℚ :=
  (roundHalfEven (q * 10) : ℚ) / 10

/-- The `statistics` block of the response (the fields derived from the
techniques dict; the `tactics` sub-block and `filters_applied` echo are
separate). -/
structure GlobalStats where
  total_techniques : Nat
  parent_techniques : Nat
  subtechniques : Nat
  covered_techniques : Nat
  uncovered_techniques : Nat
  coverage_percentage : ℚ
  coverage_levels : LevelCounts
  rules_by_severity : SeverityCounts
deriving Repr, DecidableEq

/-- The statistics computation of the endpoint, from the processed rows:
`total_techniques = len(all_techniques_dict)`, parent/sub splits from the
row list, covered/uncovered and the remaining blocks from the dict
values. -/
def matrixStatisticsOf (objs : List TechObj) : GlobalStats :=
  let dictVals := (allTechniquesDict objs).map Prod.snd
  let total := dictVals.length
  let covered := (dictVals.filter (fun o => o.coverage.has_coverage)).length
  { total_techniques := total
    parent_techniques :=
      (objs.filter (fun o => !(o.attack_id.toList.contains '.'))).length
    subtechniques :=
      (objs.filter (fun o => o.attack_id.toList.contains '.')).length
    covered_techniques := covered
    uncovered_techniques := total - covered
    coverage_percentage :=
      if 0 < total then round1 ((covered : ℚ) / (total : ℚ) * 100) else 0
    coverage_levels := coverageLevels dictVals
    rules_by_severity := globalSeverity dictVals }

/-- The endpoint's statistics as a function of the raw inputs. -/
def matrixStatistics (p : Params) (techs : List Technique)
    (rules : List Rule) : GlobalStats :=
  matrixStatisticsOf (matrixTechniqueObjs p techs rules)

/-- A row of the `tactics` table, restricted to the columns the coverage
computation reads. -/
structure Tactic where
  id : Nat
  x_mitre_shortname : String
deriving Repr, DecidableEq

/-- A row of the `technique_tactics` association table. -/
structure TTLink where
  technique_id : Nat
  tactic_id : Nat
deriving Repr, DecidableEq

/-- Generic `LEFT JOIN`: every left row paired with each matching right
row, or with `none` when nothing matches. -/
def leftJoin (l : List α) (f : α → List β) : List (α × Option β) :=
  l.flatMap (fun a =>
    match f a with
    | [] => [(a, none)]
    | bs => bs.map (fun b => (a, some b)))

theorem mem_leftJoin {l : List α} {f : α → List β} {row : α × Option β} :
    row ∈ leftJoin l f
      ↔ row.1 ∈ l ∧ ((row.2 = none ∧ f row.1 = [])
          ∨ ∃ b ∈ f row.1, row.2 = some b) := by
  cases row with
  | mk a ob =>
    simp only [leftJoin, List.mem_flatMap]
    constructor
    · rintro ⟨x, hx, hrow⟩
      cases hfx : f x with
      | nil =>
        rw [hfx] at hrow
        simp at hrow
        obtain ⟨rfl, rfl⟩ := hrow
        exact ⟨hx, Or.inl ⟨rfl, hfx⟩⟩
      | cons b bs =>
        rw [hfx] at hrow
        simp only [List.mem_map] at hrow
        obtain ⟨y, hy, heq⟩ := hrow
        injection heq with h1 h2
        subst h1
        subst h2
        refine ⟨hx, Or.inr ⟨y, ?_, rfl⟩⟩
        rw [hfx]
        exact hy
    · rintro ⟨ha, ⟨hob, hfa⟩ | ⟨b, hb, hob⟩⟩
      · subst hob
        exact ⟨a, ha, by rw [hfa]; simp⟩
      · subst hob
        refine ⟨a, ha, ?_⟩
        cases hfa : f a with
        | nil => rw [hfa] at hb; simp at hb
        | cons c cs =>
          simp only [List.mem_map]
          rw [hfa] at hb
          exact ⟨b, hb, rfl⟩

/-- Every left row appears in a `LEFT JOIN` with some right value. -/
theorem leftJoin_surj {l : List α} {f : α → List β} {a : α} (ha : a ∈ l) :
    ∃ ob, (a, ob) ∈ leftJoin l f := by
  cases hfa : f a with
  | nil => exact ⟨none, mem_leftJoin.mpr ⟨ha, Or.inl ⟨rfl, hfa⟩⟩⟩
  | cons b bs =>
    exact ⟨some b, mem_leftJoin.mpr ⟨ha, Or.inr ⟨b, by rw [hfa]; simp, rfl⟩⟩⟩

/-- The `technique_tactics` rows of one tactic group
(`LEFT JOIN technique_tactics tt ON t.id = tt.tactic_id`). -/
def tacticLinkRows (tac : Tactic) (links : List TTLink) : List TTLink :=
  links.filter (fun l => l.tactic_id == tac.id)

/-- The join condition of the `techniques` table in the tactics query:
`tech.revoked = 0 AND (:include_deprecated OR tech.deprecated = 0) AND
(:platform_filter IS NULL OR JSON_CONTAINS(tech.platforms, :platform))`. -/
def tacticTechCond (p : Params) (t : Technique) : Bool :=
  !t.revoked
    && (p.include_deprecated || !t.deprecated)
    && (match p.platform_filter with
        | none => true
        | some pf => t.platforms.contains pf)

/-- The tactics-query join rows of one tactic: links, left-joined
techniques (`ON tt.technique_id = tech.id AND <tacticTechCond>`), then
left-joined rules (`ON tech.attack_id = cr.technique_id AND cr.active = 1
AND cr.status != 'deleted'`; no join when `tech` is the NULL row). -/
def tacticRows (p : Params) (tac : Tactic) (links : List TTLink)
    (techs : List Technique) (rules : List Rule) :
    List ((TTLink × Option Technique) × Option Rule) :=
  leftJoin
    (leftJoin (tacticLinkRows tac links)
      (fun l => techs.filter
        (fun t => t.id == l.technique_id && tacticTechCond p t)))
    (fun lt =>
      match lt.2 with
      | none => []
      | some t => rules.filter
          (fun r => t.attack_id == r.technique_id
            && r.active && !(r.status == "deleted")))

/-- `COUNT(DISTINCT tt.technique_id)` of the tactics query
(`techniques_count`). -/
def techniques_count (p : Params) (tac : Tactic) (links : List TTLink)
    (techs : List Technique) (rules : List Rule) : Nat :=
  ((tacticRows p tac links techs rules).map
    (fun row => row.1.1.technique_id)).dedup.length

/-- `COUNT(DISTINCT CASE WHEN cr.active = 1 AND cr.status != 'deleted'
THEN tech.id END)` of the tactics query (`covered_techniques_count`). -/
def covered_techniques_count (p : Params) (tac : Tactic)
    (links : List TTLink) (techs : List Technique) (rules : List Rule) :
    Nat :=
  countDistinct ((tacticRows p tac links techs rules).map
    (fun row =>
      match row.2 with
      | some r =>
        if r.active && !(r.status == "deleted") then
          row.1.2.map Technique.id
        else none
      | none => none))

/-- The per-tactic `coverage_percentage` of the Python post-processing:
`round(covered / total * 100, 1)` guarded by `total > 0`. -/
def tactic_coverage_percentage (p : Params) (tac : Tactic)
    (links : List TTLink) (techs : List Technique) (rules : List Rule) :
    ℚ :=
  let total := techniques_count p tac links techs rules
  let covered := covered_techniques_count p tac links techs rules
  if 0 < total then round1 ((covered : ℚ) / (total : ℚ) * 100) else 0

/-- The serialized per-tactic object (coverage fields only). -/
structure TacticObj where
  id : Nat
  x_mitre_shortname : String
  techniques_count : Nat
  covered_techniques_count : Nat
  coverage_percentage : ℚ
deriving Repr, DecidableEq

/-- The `ORDER BY CASE t.x_mitre_shortname ... END` rank of the tactics
query (MITRE kill-chain order, unknown slugs last). -/
def killChainRank (s : String) : Nat :=
  if s == "initial-access" then 1
  else if s == "execution" then 2
  else if s == "persistence" then 3
  else if s == "privilege-escalation" then 4
  else if s == "defense-evasion" then 5
  else if s == "credential-access" then 6
  else if s == "discovery" then 7
  else if s == "lateral-movement" then 8
  else if s == "collection" then 9
  else if s == "command-and-control" then 10
  else if s == "exfiltration" then 11
  else if s == "impact" then 12
  else 99

/-- The `tactics` part of the response: tactic rows in kill-chain order
with their coverage aggregates. -/
def tacticObjs (p : Params) (tactic_list : List Tactic)
    (links : List TTLink) (techs : List Technique) (rules : List Rule) :
    List TacticObj :=
  ((tactic_list.mergeSort
      (fun a b => killChainRank a.x_mitre_shortname
        ≤ killChainRank b.x_mitre_shortname)).map
    (fun tac =>
      { id := tac.id
        x_mitre_shortname := tac.x_mitre_shortname
        techniques_count := techniques_count p tac links techs rules
        covered_techniques_count :=
          covered_techniques_count p tac links techs rules
        coverage_percentage :=
          tactic_coverage_percentage p tac links techs rules }))

/-- The coverage-relevant part of the endpoint's response. -/
structure MatrixResult where
  tactics : List TacticObj
  techniques : List TechObj
  statistics : GlobalStats
deriving Repr, DecidableEq

/-- The whole coverage computation of the endpoint as a function of its
inputs (the `generated_at` timestamp and the presentation-only fields are
not part of the coverage output). -/
def ultimateMatrix (p : Params) (tactic_list : List Tactic)
    (links : List TTLink) (techs : List Technique) (rules : List Rule) :
    MatrixResult :=
  let objs := matrixTechniqueObjs p techs rules
  { tactics := tacticObjs p tactic_list links techs rules
    techniques := (allTechniquesDict objs).map Prod.snd
    statistics := matrixStatisticsOf objs }

/-- `techniques_count` counts the distinct linked technique ids: the
technique and rule join conditions never restrict it. -/
theorem techniques_count_eq (p : Params) (tac : Tactic)
    (links : List TTLink) (techs : List Technique) (rules : List Rule) :
    techniques_count p tac links techs rules
      = ((tacticLinkRows tac links).map
          (fun l => l.technique_id)).dedup.length := by
  unfold techniques_count tacticRows
  rw [← List.card_toFinset, ← List.card_toFinset]
  congr 1
  ext n
  simp only [List.mem_toFinset, List.mem_map]
  constructor
  · rintro ⟨row, hrow, rfl⟩
    rcases mem_leftJoin.mp hrow with ⟨h2, _⟩
    rcases mem_leftJoin.mp h2 with ⟨h1, _⟩
    exact ⟨row.1.1, h1, rfl⟩
  · rintro ⟨l, hl, rfl⟩
    obtain ⟨ot, hot⟩ := @leftJoin_surj _ _ (tacticLinkRows tac links)
      (fun l => techs.filter
        (fun t => t.id == l.technique_id && tacticTechCond p t)) _ hl
    obtain ⟨orr, horr⟩ := @leftJoin_surj _ _ _
      (fun lt : TTLink × Option Technique =>
        match lt.2 with
        | none => []
        | some t => rules.filter
            (fun r => t.attack_id == r.technique_id
              && r.active && !(r.status == "deleted"))) _ hot
    exact ⟨((l, ot), orr), horr, rfl⟩

/-- Whether a linked technique id is counted as covered by the tactics
query: some matching technique row passes the join condition and has at
least one active non-deleted rule attached to its own `attack_id`. -/
def tacticCovered (p : Params) (techs : List Technique)
    (rules : List Rule) (tid : Nat) : Bool :=
  techs.any (fun t => t.id == tid && tacticTechCond p t
    && rules.any (fun r => t.attack_id == r.technique_id
        && r.active && !(r.status == "deleted")))

/-- `covered_techniques_count` counts the distinct linked technique ids
whose technique row passes the join filter and has an active non-deleted
rule on its own id (no sub-technique roll-up). -/
theorem covered_techniques_count_eq (p : Params) (tac : Tactic)
    (links : List TTLink) (techs : List Technique) (rules : List Rule) :
    covered_techniques_count p tac links techs rules
      = (((tacticLinkRows tac links).map
            (fun l => l.technique_id)).dedup.filter
          (tacticCovered p techs rules)).length := by
  unfold covered_techniques_count tacticRows
  rw [countDistinct_eq_card]
  have hnd :
      (((tacticLinkRows tac links).map
          (fun l => l.technique_id)).dedup.filter
        (tacticCovered p techs rules)).Nodup :=
    (List.nodup_dedup _).filter _
  rw [← List.toFinset_card_of_nodup hnd]
  congr 1
  ext n
  simp only [List.mem_toFinset, List.mem_filterMap, List.mem_map, id_eq,
    List.mem_filter, List.mem_dedup]
  constructor
  · rintro ⟨m, ⟨row, hrow, hcase⟩, rfl⟩
    rcases mem_leftJoin.mp hrow with ⟨h2, hr⟩
    rcases mem_leftJoin.mp h2 with ⟨h1, ht⟩
    rcases hr with ⟨hnone, _⟩ | ⟨r, hrmem, hsome⟩
    · rw [hnone] at hcase
      simp at hcase
    · rw [hsome] at hcase
      rcases ht with ⟨htnone, _⟩ | ⟨t, htmem, htsome⟩
      · rw [htnone] at hrmem
        simp at hrmem
      · rw [htsome] at hrmem hcase
        simp only [List.mem_filter] at hrmem
        obtain ⟨hrr, hrc⟩ := hrmem
        simp only [Bool.and_eq_true, beq_iff_eq] at hrc
        obtain ⟨⟨hattack, hactive⟩, hdel⟩ := hrc
        simp only [hactive, hdel, Bool.and_self, if_true,
          Option.map_some] at hcase
        simp only [List.mem_filter, Bool.and_eq_true, beq_iff_eq] at htmem
        obtain ⟨htt, htid, hcond⟩ := htmem
        obtain rfl := Option.some_inj.mp hcase
        constructor
        · exact ⟨row.1.1, h1, htid.symm⟩
        · unfold tacticCovered
          rw [List.any_eq_true]
          refine ⟨t, htt, ?_⟩
          have hr2 : rules.any (fun r => t.attack_id == r.technique_id
              && r.active && !(r.status == "deleted")) = true := by
            rw [List.any_eq_true]
            exact ⟨r, hrr, by simp [hattack, hactive, hdel]⟩
          simp [hcond, hr2]
  · rintro ⟨⟨l, hl, rfl⟩, hcov⟩
    unfold tacticCovered at hcov
    rw [List.any_eq_true] at hcov
    obtain ⟨t, htt, hct⟩ := hcov
    simp only [Bool.and_eq_true, beq_iff_eq] at hct
    obtain ⟨⟨htid, hcond⟩, hrules⟩ := hct
    rw [List.any_eq_true] at hrules
    obtain ⟨r, hrr, hrc⟩ := hrules
    simp only [Bool.and_eq_true, beq_iff_eq] at hrc
    obtain ⟨⟨hattack, hactive⟩, hdel⟩ := hrc
    refine ⟨some t.id, ⟨((l, some t), some r), ?_, ?_⟩, by rw [htid]⟩
    · apply mem_leftJoin.mpr
      refine ⟨?_, Or.inr ⟨r, ?_, rfl⟩⟩
      · apply mem_leftJoin.mpr
        refine ⟨hl, Or.inr ⟨t, ?_, rfl⟩⟩
        simp only [List.mem_filter, Bool.and_eq_true, beq_iff_eq]
        exact ⟨htt, htid, hcond⟩
      · simp only [List.mem_filter, Bool.and_eq_true, beq_iff_eq]
        exact ⟨hrr, ⟨hattack, hactive⟩, hdel⟩
    · simp [hactive, hdel]

theorem techniqueCoverage_total (aid : String) (rules : List Rule) :
    (techniqueCoverage aid rules).total_rules
      = own_total_rules aid rules + sub_total_rules aid rules := rfl

theorem techniqueCoverage_active (aid : String) (rules : List Rule) :
    (techniqueCoverage aid rules).active_rules
      = own_active_rules aid rules + sub_active_rules aid rules := rfl

theorem techniqueCoverage_level (aid : String) (rules : List Rule) :
    (techniqueCoverage aid rules).coverage_level
      = coverageLevelOf ((techniqueCoverage aid rules).active_rules) := rfl

theorem techniqueCoverage_sev (aid : String) (rules : List Rule) :
    (techniqueCoverage aid rules).rules_by_severity
      = { critical := severity_rules_count "critical" aid rules
          high := severity_rules_count "high" aid rules
          medium := severity_rules_count "medium" aid rules
          low := severity_rules_count "low" aid rules } := rfl

theorem coverageLevel_excellent_iff (n : Nat) :
    coverageLevelOf n = "excellent" ↔ 5 ≤ n := by
  unfold coverageLevelOf
  split_ifs with h1 h2 h3 <;> simp_all

theorem coverageLevel_good_iff (n : Nat) :
    coverageLevelOf n = "good" ↔ 3 ≤ n ∧ n ≤ 4 := by
  unfold coverageLevelOf
  split_ifs with h1 h2 h3 <;> simp_all <;> omega

theorem coverageLevel_basic_iff (n : Nat) :
    coverageLevelOf n = "basic" ↔ 1 ≤ n ∧ n ≤ 2 := by
  unfold coverageLevelOf
  split_ifs with h1 h2 h3 <;> simp_all <;> omega

theorem coverageLevel_none_iff (n : Nat) :
    coverageLevelOf n = "none" ↔ n = 0 := by
  unfold coverageLevelOf
  split_ifs with h1 h2 h3 <;> simp_all <;> omega

/-- C5: a technique's `coverage_level` is `excellent` exactly when its
`active_rules` is at least 5, `good` exactly for 3 or 4, `basic` exactly
for 1 or 2, and `none` exactly for 0. -/
theorem C5_coverage_level_thresholds (aid : String) (rules : List Rule) :
    ((techniqueCoverage aid rules).coverage_level = "excellent"
        ↔ 5 ≤ (techniqueCoverage aid rules).active_rules)
    ∧ ((techniqueCoverage aid rules).coverage_level = "good"
        ↔ 3 ≤ (techniqueCoverage aid rules).active_rules
          ∧ (techniqueCoverage aid rules).active_rules ≤ 4)
    ∧ ((techniqueCoverage aid rules).coverage_level = "basic"
        ↔ 1 ≤ (techniqueCoverage aid rules).active_rules
          ∧ (techniqueCoverage aid rules).active_rules ≤ 2)
    ∧ ((techniqueCoverage aid rules).coverage_level = "none"
        ↔ (techniqueCoverage aid rules).active_rules = 0) := by
  rw [techniqueCoverage_level]
  exact ⟨coverageLevel_excellent_iff _, coverageLevel_good_iff _,
    coverageLevel_basic_iff _, coverageLevel_none_iff _⟩

/-- C10: each active-rule count is a filtered sub-count of the matching
total, so `active_rules <= total_rules` on both the own and the sub side
and on their sum. -/
theorem C10_active_le_total (aid : String) (rules : List Rule) :
    (techniqueCoverage aid rules).active_rules
        ≤ (techniqueCoverage aid rules).total_rules
    ∧ own_active_rules aid rules ≤ own_total_rules aid rules
    ∧ sub_active_rules aid rules ≤ sub_total_rules aid rules := by
  have hown : own_active_rules aid rules ≤ own_total_rules aid rules := by
    unfold own_active_rules own_total_rules
    exact countDistinct_le _ _ _ (fun p n h => activeIdCase_some p.1 n h)
  have hsub : sub_active_rules aid rules ≤ sub_total_rules aid rules := by
    unfold sub_active_rules sub_total_rules
    exact countDistinct_le _ _ _ (fun p n h => activeIdCase_some p.2 n h)
  refine ⟨?_, hown, hsub⟩
  rw [techniqueCoverage_active, techniqueCoverage_total]
  omega

theorem subJoin_of_contains_dot (aid : String) (rules : List Rule)
    (hdot : aid.toList.contains '.' = true) :
    subJoin aid rules = [] := by
  unfold subJoin
  apply List.filter_eq_nil_iff.mpr
  intro r _
  simp [sqlLike_contains_dot, hdot]
  intro _
  simpa using hdot

/-- C6: a sub-technique (dotted id) gets no roll-up: its `total_rules`
counts exactly the rules attached to its own id. -/
theorem C6_subtechnique_own_rules_only (aid : String) (rules : List Rule)
    (hdot : aid.toList.contains '.' = true)
    (hid : (rules.map Rule.id).Nodup) :
    (techniqueCoverage aid rules).total_rules
      = (rules.filter (fun r => r.technique_id == aid)).length := by
  rw [techniqueCoverage_total, own_total_rules_eq _ _ hid,
    sub_total_rules_eq _ _ hid, subJoin_of_contains_dot _ _ hdot]
  simp [ownJoin]

/-- Witness for C6 at the concrete sub-technique "T1505.001". -/
theorem C6_witness :
    ("T1505.001".toList.contains '.' = true)
    ∧ (([⟨1, "T1505.001", true, "active", some "high"⟩,
         ⟨2, "T1505", true, "active", none⟩,
         ⟨3, "T1505.002", true, "active", none⟩] : List Rule).map
          Rule.id).Nodup
    ∧ (techniqueCoverage "T1505.001"
        [⟨1, "T1505.001", true, "active", some "high"⟩,
         ⟨2, "T1505", true, "active", none⟩,
         ⟨3, "T1505.002", true, "active", none⟩]).total_rules
      = (([⟨1, "T1505.001", true, "active", some "high"⟩,
           ⟨2, "T1505", true, "active", none⟩,
           ⟨3, "T1505.002", true, "active", none⟩] : List Rule).filter
          (fun r => r.technique_id == "T1505.001")).length :=
  ⟨by decide, by decide,
    C6_subtechnique_own_rules_only "T1505.001" _ (by decide) (by decide)⟩

theorem subJoin_of_no_dot (aid : String) (rules : List Rule)
    (hw : noWild aid.toList = true)
    (hdot : aid.toList.contains '.' = false) :
    subJoin aid rules
      = rules.filter (fun r =>
          (aid.toList ++ ['.']).isPrefixOf r.technique_id.toList) := by
  unfold subJoin
  apply List.filter_congr
  intro r _
  have hnw : noWild (aid.toList ++ ['.']) = true := by
    unfold noWild at hw ⊢
    rw [List.all_append, hw]
    decide
  have h1 : sqlLike (aid.toList ++ ['.', '%']) r.technique_id.toList
      = (aid.toList ++ ['.']).isPrefixOf r.technique_id.toList := by
    have h2 := sqlLike_append_percent (aid.toList ++ ['.'])
      r.technique_id.toList hnw
    rw [List.append_assoc] at h2
    exact h2
  rw [sqlLike_contains_dot, hdot, h1]
  simp

/-- C1: a parent technique's `total_rules` is the count of rules on its
own id plus the count of rules on dotted sub-ids, and `active_rules` is
the same sum restricted to active non-deleted rules. -/
theorem C1_parent_rollup (aid : String) (rules : List Rule)
    (hw : noWild aid.toList = true)
    (hdot : aid.toList.contains '.' = false)
    (hid : (rules.map Rule.id).Nodup) :
    (techniqueCoverage aid rules).total_rules
      = (rules.filter (fun r => r.technique_id == aid)).length
        + (rules.filter (fun r =>
            (aid.toList ++ ['.']).isPrefixOf r.technique_id.toList)).length
    ∧ (techniqueCoverage aid rules).active_rules
      = (rules.filter (fun r =>
            r.technique_id == aid && isActiveRule r)).length
        + (rules.filter (fun r =>
            (aid.toList ++ ['.']).isPrefixOf r.technique_id.toList
              && isActiveRule r)).length := by
  constructor
  · rw [techniqueCoverage_total, own_total_rules_eq _ _ hid,
      sub_total_rules_eq _ _ hid, subJoin_of_no_dot _ _ hw hdot]
    rfl
  · rw [techniqueCoverage_active, own_active_rules_eq _ _ hid,
      sub_active_rules_eq _ _ hid, subJoin_of_no_dot _ _ hw hdot]
    unfold ownJoin
    rw [List.filter_filter, List.filter_filter]
    rw [show (rules.filter (fun a => isActiveRule a && a.technique_id == aid))
        = rules.filter (fun r => r.technique_id == aid && isActiveRule r) from
      List.filter_congr (fun a _ => Bool.and_comm _ _)]
    rw [show (rules.filter (fun a => isActiveRule a
          && (aid.toList ++ ['.']).isPrefixOf a.technique_id.toList))
        = rules.filter (fun r =>
            (aid.toList ++ ['.']).isPrefixOf r.technique_id.toList
              && isActiveRule r) from
      List.filter_congr (fun a _ => Bool.and_comm _ _)]

/-- Witness for C1 at the spec's "T1505" scenario (two active high rules
on sub-technique "T1505.001"). -/
theorem C1_witness :
    (noWild "T1505".toList = true)
    ∧ ("T1505".toList.contains '.' = false)
    ∧ (([⟨1, "T1505.001", true, "active", some "high"⟩,
         ⟨2, "T1505.001", true, "active", some "high"⟩,
         ⟨3, "T1078", true, "active", none⟩] : List Rule).map Rule.id).Nodup
    ∧ ((techniqueCoverage "T1505"
        [⟨1, "T1505.001", true, "active", some "high"⟩,
         ⟨2, "T1505.001", true, "active", some "high"⟩,
         ⟨3, "T1078", true, "active", none⟩]).total_rules
      = (([⟨1, "T1505.001", true, "active", some "high"⟩,
           ⟨2, "T1505.001", true, "active", some "high"⟩,
           ⟨3, "T1078", true, "active", none⟩] : List Rule).filter
          (fun r => r.technique_id == "T1505")).length
        + (([⟨1, "T1505.001", true, "active", some "high"⟩,
            ⟨2, "T1505.001", true, "active", some "high"⟩,
            ⟨3, "T1078", true, "active", none⟩] : List Rule).filter
            (fun r =>
              ("T1505".toList ++ ['.']).isPrefixOf
                r.technique_id.toList)).length) :=
  ⟨by decide, by decide, by decide,
    (C1_parent_rollup "T1505" _ (by decide) (by decide) (by decide)).1⟩

/-- Counterexample to C2: a rule with status "deleted" on technique "T9"
is still counted in `total_rules` (the own/sub joins of the techniques
query carry no status condition), so `total_rules` is 1 where the claim
requires the deleted rule to be counted toward neither total nor active. -/
theorem C2_counterexample :
    (techniqueCoverage "T9"
        [⟨0, "T9", false, "deleted", none⟩]).total_rules = 1
    ∧ (techniqueCoverage "T9"
        [⟨0, "T9", false, "deleted", none⟩]).active_rules = 0 := by
  decide

/-- C2 amended: a rule with status "deleted" is excluded from
`active_rules` but still counted toward `total_rules`; a rule is counted
toward `active_rules` exactly when it is active and not deleted. -/
theorem C2_amended_deleted_total (aid : String) (rules : List Rule)
    (hid : (rules.map Rule.id).Nodup) :
    (techniqueCoverage aid rules).total_rules
      = (ownJoin aid rules).length + (subJoin aid rules).length
    ∧ (techniqueCoverage aid rules).active_rules
      = ((ownJoin aid rules).filter isActiveRule).length
        + ((subJoin aid rules).filter isActiveRule).length := by
  constructor
  · rw [techniqueCoverage_total, own_total_rules_eq _ _ hid,
      sub_total_rules_eq _ _ hid]
  · rw [techniqueCoverage_active, own_active_rules_eq _ _ hid,
      sub_active_rules_eq _ _ hid]

/-- Witness for the amended C2 at the deleted-rule input. -/
theorem C2_amended_witness :
    (([⟨0, "T9", false, "deleted", none⟩,
       ⟨1, "T9", true, "active", none⟩] : List Rule).map Rule.id).Nodup
    ∧ ((techniqueCoverage "T9"
        [⟨0, "T9", false, "deleted", none⟩,
         ⟨1, "T9", true, "active", none⟩]).total_rules
      = (ownJoin "T9" [⟨0, "T9", false, "deleted", none⟩,
          ⟨1, "T9", true, "active", none⟩]).length
        + (subJoin "T9" [⟨0, "T9", false, "deleted", none⟩,
            ⟨1, "T9", true, "active", none⟩]).length) :=
  ⟨by decide,
    (C2_amended_deleted_total "T9" _ (by decide)).1⟩

/-- Counterexample to C3: technique "T1" with an own active rule of
severity critical and a sub-technique active rule of severity high.  The
SQL `COALESCE` bucketing counts the high bucket as 0, while the claim's
per-rule severity count is 1. -/
theorem C3_counterexample :
    ¬ ((techniqueCoverage "T1"
        [⟨0, "T1", true, "active", some "critical"⟩,
         ⟨1, "T1.001", true, "active", some "high"⟩]).rules_by_severity.high
      = (([⟨0, "T1", true, "active", some "critical"⟩,
           ⟨1, "T1.001", true, "active", some "high"⟩] : List Rule).filter
          (fun r => isActiveRule r
            && (r.severity == some "high"))).length) := by
  decide

/-- C3 amended: whenever the technique has no own rules or no
sub-technique rules (in particular for every sub-technique), each
severity bucket counts exactly the active rules (own and sub) having
exactly that severity, so no rule lands in a wrong bucket; with both own
and sub rules present the SQL `COALESCE` bucketing can mis-attribute. -/
theorem C3_amended_severity_buckets (aid : String) (rules : List Rule)
    (hid : (rules.map Rule.id).Nodup)
    (h : ownJoin aid rules = [] ∨ subJoin aid rules = []) :
    (techniqueCoverage aid rules).rules_by_severity.critical
      = ((ownJoin aid rules ++ subJoin aid rules).filter
          (fun r => isActiveRule r && (r.severity == some "critical"))).length
    ∧ (techniqueCoverage aid rules).rules_by_severity.high
      = ((ownJoin aid rules ++ subJoin aid rules).filter
          (fun r => isActiveRule r && (r.severity == some "high"))).length
    ∧ (techniqueCoverage aid rules).rules_by_severity.medium
      = ((ownJoin aid rules ++ subJoin aid rules).filter
          (fun r => isActiveRule r && (r.severity == some "medium"))).length
    ∧ (techniqueCoverage aid rules).rules_by_severity.low
      = ((ownJoin aid rules ++ subJoin aid rules).filter
          (fun r => isActiveRule r && (r.severity == some "low"))).length := by
  rw [techniqueCoverage_sev]
  rcases h with ho | hs
  · rw [ho]
    simp only [List.nil_append]
    exact ⟨severity_rules_count_of_own_nil _ _ _ hid ho,
      severity_rules_count_of_own_nil _ _ _ hid ho,
      severity_rules_count_of_own_nil _ _ _ hid ho,
      severity_rules_count_of_own_nil _ _ _ hid ho⟩
  · rw [hs]
    simp only [List.append_nil]
    exact ⟨severity_rules_count_of_sub_nil _ _ _ hid hs,
      severity_rules_count_of_sub_nil _ _ _ hid hs,
      severity_rules_count_of_sub_nil _ _ _ hid hs,
      severity_rules_count_of_sub_nil _ _ _ hid hs⟩

/-- Witness for the amended C3 at the spec's "T1505" scenario. -/
theorem C3_amended_witness :
    (([⟨1, "T1505.001", true, "active", some "high"⟩,
       ⟨2, "T1505.001", true, "active", some "high"⟩] : List Rule).map
        Rule.id).Nodup
    ∧ (ownJoin "T1505" [⟨1, "T1505.001", true, "active", some "high"⟩,
        ⟨2, "T1505.001", true, "active", some "high"⟩] = []
      ∨ subJoin "T1505" [⟨1, "T1505.001", true, "active", some "high"⟩,
          ⟨2, "T1505.001", true, "active", some "high"⟩] = [])
    ∧ (techniqueCoverage "T1505"
        [⟨1, "T1505.001", true, "active", some "high"⟩,
         ⟨2, "T1505.001", true, "active", some "high"⟩]).rules_by_severity.high
      = ((ownJoin "T1505" [⟨1, "T1505.001", true, "active", some "high"⟩,
            ⟨2, "T1505.001", true, "active", some "high"⟩]
          ++ subJoin "T1505" [⟨1, "T1505.001", true, "active", some "high"⟩,
              ⟨2, "T1505.001", true, "active", some "high"⟩]).filter
          (fun r => isActiveRule r && (r.severity == some "high"))).length :=
  ⟨by decide, Or.inl (by decide),
    (C3_amended_severity_buckets "T1505" _ (by decide)
      (Or.inl (by decide))).2.1⟩

/-- C7: a revoked technique is dropped by the `WHERE t.revoked = 0`
clause before any aggregation, so appending it to the input leaves every
field of the global coverage statistics unchanged, whatever its rules. -/
theorem C7_revoked_excluded (p : Params) (techs : List Technique)
    (rules : List Rule) (t : Technique) (hrev : t.revoked = true) :
    matrixStatistics p (techs ++ [t]) rules
      = matrixStatistics p techs rules := by
  unfold matrixStatistics matrixTechniqueObjs
  rw [List.filter_append]
  rw [show (([t] : List Technique).filter (techWhere p)) = [] from by
    simp [techWhere, hrev]]
  rw [List.append_nil]

/-- Witness for C7: a revoked technique with an active rule attached
changes nothing in the global statistics. -/
theorem C7_witness :
    (Technique.mk 11 "T2" false true ["Windows"] ["execution"]).revoked
        = true
    ∧ matrixStatistics ⟨none, "all", none, false⟩
        ([⟨10, "T1", false, false, ["Windows"], ["execution"]⟩]
          ++ [⟨11, "T2", false, true, ["Windows"], ["execution"]⟩])
        [⟨0, "T2", true, "active", some "high"⟩]
      = matrixStatistics ⟨none, "all", none, false⟩
          [⟨10, "T1", false, false, ["Windows"], ["execution"]⟩]
          [⟨0, "T2", true, "active", some "high"⟩] :=
  ⟨rfl, C7_revoked_excluded ⟨none, "all", none, false⟩
    [⟨10, "T1", false, false, ["Windows"], ["execution"]⟩]
    [⟨0, "T2", true, "active", some "high"⟩]
    ⟨11, "T2", false, true, ["Windows"], ["execution"]⟩ rfl⟩

/-- The sum of the four level counters. -/
def sumLevels (lc : LevelCounts) : Nat :=
  lc.excellent + lc.good + lc.basic + lc.none_

theorem coverageLevelOf_known (n : Nat) :
    coverageLevelOf n = "excellent" ∨ coverageLevelOf n = "good"
    ∨ coverageLevelOf n = "basic" ∨ coverageLevelOf n = "none" := by
  unfold coverageLevelOf
  split_ifs <;> simp

theorem bumpLevel_sum (lc : LevelCounts) (s : String)
    (h : s = "excellent" ∨ s = "good" ∨ s = "basic" ∨ s = "none") :
    sumLevels (bumpLevel lc s) = sumLevels lc + 1 := by
  rcases h with h | h | h | h <;> subst h <;>
    simp [bumpLevel, sumLevels] <;> omega

theorem coverageLevels_foldl_sum (objs : List TechObj)
    (h : ∀ o ∈ objs, o.coverage.coverage_level = "excellent"
      ∨ o.coverage.coverage_level = "good"
      ∨ o.coverage.coverage_level = "basic"
      ∨ o.coverage.coverage_level = "none") :
    ∀ init : LevelCounts,
      sumLevels (objs.foldl
        (fun lc o => bumpLevel lc o.coverage.coverage_level) init)
      = sumLevels init + objs.length := by
  induction objs with
  | nil => intro init; simp
  | cons o objs ih =>
    intro init
    simp only [List.foldl_cons, List.length_cons]
    rw [ih (fun x hx => h x (List.mem_cons_of_mem o hx))]
    rw [bumpLevel_sum init _ (h o (List.mem_cons_self o objs))]
    omega

theorem mem_dictInsert_snd {d : List (String × TechObj)} {k : String}
    {v x : TechObj} (h : x ∈ (dictInsert d k v).map Prod.snd) :
    x = v ∨ x ∈ d.map Prod.snd := by
  induction d with
  | nil =>
    simp [dictInsert] at h
    exact Or.inl h
  | cons kv d ih =>
    obtain ⟨k', v'⟩ := kv
    by_cases hk : k' == k
    · simp only [dictInsert, hk, if_true, List.map_cons, List.mem_cons] at h
      rcases h with h | h
      · exact Or.inl h
      · exact Or.inr (by simp; exact Or.inr (by simpa using h))
    · simp only [dictInsert, hk, if_false, Bool.false_eq_true,
        List.map_cons, List.mem_cons] at h
      rcases h with h | h
      · exact Or.inr (by simp [h])
      · rcases ih h with h2 | h2
        · exact Or.inl h2
        · exact Or.inr (by simp at h2 ⊢; exact Or.inr h2)

theorem mem_allTechniquesDict {objs : List TechObj} {x : TechObj}
    (h : x ∈ (allTechniquesDict objs).map Prod.snd) : x ∈ objs := by
  unfold allTechniquesDict at h
  suffices hgen : ∀ (l : List TechObj) (d : List (String × TechObj)),
      x ∈ (l.foldl (fun d o => dictInsert d o.attack_id o) d).map Prod.snd
      → x ∈ d.map Prod.snd ∨ x ∈ l by
    rcases hgen objs [] h with h2 | h2
    · simp at h2
    · exact h2
  intro l
  induction l with
  | nil =>
    intro d hd
    exact Or.inl hd
  | cons o l ih =>
    intro d hd
    simp only [List.foldl_cons] at hd
    rcases ih _ hd with h2 | h2
    · rcases mem_dictInsert_snd h2 with h3 | h3
      · exact Or.inr (by simp [h3])
      · exact Or.inl h3
    · exact Or.inr (List.mem_cons_of_mem o h2)

theorem mem_matrixTechniqueObjs {p : Params} {techs : List Technique}
    {rules : List Rule} {o : TechObj}
    (h : o ∈ matrixTechniqueObjs p techs rules) :
    ∃ t, o = mkTechObj t rules := by
  unfold matrixTechniqueObjs at h
  rw [List.mem_filterMap] at h
  obtain ⟨t, _, ht⟩ := h
  by_cases hc : coverageFilterPass p (mkTechObj t rules).coverage.active_rules
  · simp only [hc, if_true] at ht
    exact ⟨t, (Option.some_inj.mp ht).symm⟩
  · simp only [hc, if_false, Bool.false_eq_true] at ht
    cases ht

/-- C8: the four `coverage_levels` counters of the global statistics sum
to `total_techniques`. -/
theorem C8_levels_sum_total (p : Params) (techs : List Technique)
    (rules : List Rule) :
    (matrixStatistics p techs rules).coverage_levels.excellent
      + (matrixStatistics p techs rules).coverage_levels.good
      + (matrixStatistics p techs rules).coverage_levels.basic
      + (matrixStatistics p techs rules).coverage_levels.none_
    = (matrixStatistics p techs rules).total_techniques := by
  have hknown : ∀ o ∈ (allTechniquesDict
      (matrixTechniqueObjs p techs rules)).map Prod.snd,
      o.coverage.coverage_level = "excellent"
      ∨ o.coverage.coverage_level = "good"
      ∨ o.coverage.coverage_level = "basic"
      ∨ o.coverage.coverage_level = "none" := by
    intro o ho
    obtain ⟨t, rfl⟩ := mem_matrixTechniqueObjs (mem_allTechniquesDict ho)
    have : (mkTechObj t rules).coverage.coverage_level
        = coverageLevelOf ((mkTechObj t rules).coverage.active_rules) := rfl
    rw [this]
    exact coverageLevelOf_known _
  show sumLevels (matrixStatistics p techs rules).coverage_levels = _
  unfold matrixStatistics matrixStatisticsOf
  simp only
  rw [show (coverageLevels ((allTechniquesDict
      (matrixTechniqueObjs p techs rules)).map Prod.snd))
    = ((allTechniquesDict (matrixTechniqueObjs p techs rules)).map
        Prod.snd).foldl
      (fun lc o => bumpLevel lc o.coverage.coverage_level) ⟨0, 0, 0, 0⟩
    from rfl]
  rw [coverageLevels_foldl_sum _ hknown ⟨0, 0, 0, 0⟩]
  simp [sumLevels]

/-- C9: the aggregation is a pure function of its inputs — equal filter
parameters, tactics, links, techniques and rules give an identical
coverage result, with no hidden state. -/
theorem C9_deterministic (p p' : Params) (tl tl' : List Tactic)
    (lk lk' : List TTLink) (ts ts' : List Technique)
    (rs rs' : List Rule)
    (hp : p = p') (htl : tl = tl') (hlk : lk = lk') (hts : ts = ts')
    (hrs : rs = rs') :
    ultimateMatrix p tl lk ts rs = ultimateMatrix p' tl' lk' ts' rs' := by
  subst hp htl hlk hts hrs
  rfl

/-- Witness for C9 at a concrete input. -/
theorem C9_witness :
    ultimateMatrix ⟨none, "all", none, false⟩ [⟨1, "execution"⟩]
        [⟨10, 1⟩] [⟨10, "T1", false, false, [], ["execution"]⟩]
        [⟨0, "T1", true, "active", some "high"⟩]
      = ultimateMatrix ⟨none, "all", none, false⟩ [⟨1, "execution"⟩]
          [⟨10, 1⟩] [⟨10, "T1", false, false, [], ["execution"]⟩]
          [⟨0, "T1", true, "active", some "high"⟩] :=
  C9_deterministic _ _ _ _ _ _ _ _ _ _ rfl rfl rfl rfl rfl

/-- The techniques a tactic is linked to according to the claim C4: the
distinct linked technique rows, excluding revoked, and excluding
deprecated unless opted in. -/
def claimLinkedTechniques (p : Params) (tac : Tactic)
    (links : List TTLink) (techs : List Technique) : List Technique :=
  (((tacticLinkRows tac links).map (fun l => l.technique_id)).dedup.filterMap
    (fun tid => techs.find? (fun t => t.id == tid))).filter
    (fun t => !t.revoked && (p.include_deprecated || !t.deprecated))

/-- The claim C4's covering condition: at least one active (non-deleted)
rule on the technique's own id or, for a parent, on a dotted sub-id. -/
def claimHasActiveRuleRollup (t : Technique) (rules : List Rule) : Bool :=
  rules.any (fun r => isActiveRule r
    && (r.technique_id == t.attack_id
      || (!(t.attack_id.toList.contains '.')
          && (t.attack_id.toList ++ ['.']).isPrefixOf
              r.technique_id.toList)))

/-- The per-tactic coverage percentage exactly as claim C4 words it
(revoked excluded from the total, roll-up counted for coverage). -/
def claim_tactic_coverage_percentage (p : Params) (tac : Tactic)
    (links : List TTLink) (techs : List Technique) (rules : List Rule) :
    ℚ :=
  let linked := claimLinkedTechniques p tac links techs
  let total := linked.length
  let covered :=
    (linked.filter (fun t => claimHasActiveRuleRollup t rules)).length
  if 0 < total then round1 ((covered : ℚ) / (total : ℚ) * 100) else 0

/-- The concrete counterexample input of C4: one tactic linked to the
covered technique "T1" and to the revoked technique "T2". -/
def cexParams : Params := ⟨none, "all", none, false⟩

def cexTactic : Tactic := ⟨1, "execution"⟩

def cexLinks : List TTLink := [⟨10, 1⟩, ⟨11, 1⟩]

def cexTechs : List Technique :=
  [⟨10, "T1", false, false, [], ["execution"]⟩,
   ⟨11, "T2", false, true, [], ["execution"]⟩]

def cexRules : List Rule := [⟨0, "T1", true, "active", none⟩]

/-- Counterexample to C4: the code's total counts the revoked linked
technique (`COUNT(DISTINCT tt.technique_id)` has no revoked filter), so
the code reports 50.0 where the claim's formula (revoked excluded from
the total) gives 100.0. -/
theorem C4_counterexample :
    ¬ (tactic_coverage_percentage cexParams cexTactic cexLinks cexTechs
          cexRules
        = claim_tactic_coverage_percentage cexParams cexTactic cexLinks
            cexTechs cexRules)
    ∧ tactic_coverage_percentage cexParams cexTactic cexLinks cexTechs
        cexRules = 50
    ∧ claim_tactic_coverage_percentage cexParams cexTactic cexLinks
        cexTechs cexRules = 100 := by
  have hform : tactic_coverage_percentage cexParams cexTactic cexLinks
      cexTechs cexRules
      = (if 0 < techniques_count cexParams cexTactic cexLinks cexTechs
            cexRules then
          round1 ((covered_techniques_count cexParams cexTactic cexLinks
              cexTechs cexRules : ℚ)
            / (techniques_count cexParams cexTactic cexLinks cexTechs
                cexRules : ℚ) * 100)
        else 0) := rfl
  have hcode : tactic_coverage_percentage cexParams cexTactic cexLinks
      cexTechs cexRules = 50 := by
    rw [hform,
      show techniques_count cexParams cexTactic cexLinks cexTechs cexRules
        = 2 from by decide,
      show covered_techniques_count cexParams cexTactic cexLinks cexTechs
        cexRules = 1 from by decide]
    norm_num [round1, roundHalfEven]
  have hclaimform : claim_tactic_coverage_percentage cexParams cexTactic
      cexLinks cexTechs cexRules
      = (if 0 < (claimLinkedTechniques cexParams cexTactic cexLinks
            cexTechs).length then
          round1 ((((claimLinkedTechniques cexParams cexTactic cexLinks
                cexTechs).filter
              (fun t => claimHasActiveRuleRollup t cexRules)).length : ℚ)
            / ((claimLinkedTechniques cexParams cexTactic cexLinks
                cexTechs).length : ℚ) * 100)
        else 0) := rfl
  have hclaim : claim_tactic_coverage_percentage cexParams cexTactic
      cexLinks cexTechs cexRules = 100 := by
    rw [hclaimform,
      show (claimLinkedTechniques cexParams cexTactic cexLinks
        cexTechs).length = 1 from by decide,
      show ((claimLinkedTechniques cexParams cexTactic cexLinks
          cexTechs).filter
        (fun t => claimHasActiveRuleRollup t cexRules)).length = 1 from by
        decide]
    norm_num [round1, roundHalfEven]
  refine ⟨?_, hcode, hclaim⟩
  rw [hcode, hclaim]
  norm_num

/-- C4 amended: `coverage_percentage` is
`round(covered / total * 100, 1)` (0 when `total` is 0, never dividing
by zero), where `total` counts the distinct linked technique ids with no
revoked or deprecated filter, and `covered` counts the distinct linked
techniques that pass the revoked/deprecated/platform join filter and
have at least one active non-deleted rule on their own id, with no
sub-technique roll-up. -/
theorem C4_amended_tactic_percentage (p : Params) (tac : Tactic)
    (links : List TTLink) (techs : List Technique) (rules : List Rule) :
    tactic_coverage_percentage p tac links techs rules
      = (if 0 < ((tacticLinkRows tac links).map
            (fun l => l.technique_id)).dedup.length then
          round1
            (((((tacticLinkRows tac links).map
                  (fun l => l.technique_id)).dedup.filter
                (tacticCovered p techs rules)).length : ℚ)
              / ((((tacticLinkRows tac links).map
                    (fun l => l.technique_id)).dedup.length : ℚ))
              * 100)
        else 0) := by
  unfold tactic_coverage_percentage
  rw [techniques_count_eq, covered_techniques_count_eq]
